import Mathlib

/-!
Verification development for the rvfs passthrough filesystem.

Shallow embedding of the core of the repository (src/error.rs, src/inode.rs,
src/rfs.rs, src/fuse.rs) into Lean:

* machine integers (u64, u32, u16, usize, i64) are modelled as Nat / Int with
  explicit reductions modulo 2^w at the places where the source performs a
  wrapping cast or a wrapping shift;
* `SystemTime` is modelled as a Nat (seconds since the epoch); the host clock
  reading `SystemTime::now()` is passed in explicitly as a `now : Nat`
  parameter at every operation that consults the clock;
* host filesystem calls (`File::create`, `fs::create_dir`, `fs::remove_file`,
  `fs::remove_dir_all`, `File::options().open`, seek / write on a descriptor)
  are modelled either by a small explicit origin-filesystem state (`OriginFS`)
  or, for descriptor-level seek/write, by an oracle record carrying the host
  call results; `FuseError::last()` (the current host errno) is passed in as a
  `lastErr` parameter;
* the external ClamAV scanner is the opaque verdict function the spec
  describes; it is a parameter `scan : FsPath → Except Unit ScanResult`;
* the `RwLock`-guarded `HashMap<u64, RwLock<Inode>>` of `rfs.rs` is modelled
  as an association list with unique keys (`InodeList`); `HashMap::insert`
  replaces the value when the key is already present, `HashMap::len` counts
  the (distinct) keys, and `iter().find(..)` is `List.find?`.  Iteration
  order of a HashMap is arbitrary; every theorem below only depends on
  existence / absence of a matching entry, never on which entry is found
  first.
-/

namespace Rvfs

/-- Filesystem paths are modelled as lists of components.  `file_name` below
mirrors `Path::file_name`, which returns the final component, or `None` when
the path terminates in `"."` or `".."` (interior `"."` components never occur
in the paths the program builds). -/
abbrev FsPath := List String

/-- `fuser::FileType` restricted to the variants the source constructs
(`std_file_type_to_fuse_file_type` only ever produces these three; the
remaining fuser variants hit the same catch-all match arms as `Symlink`). -/
inductive FileType where
  | RegularFile
  | Directory
  | Symlink
deriving DecidableEq

/-- `FuseError` from src/error.rs: a wrapper around the host errno value. -/
structure FuseError where
  code : Int
deriving DecidableEq

def FuseError.OPERATION_NOT_PERMITTED : FuseError := ⟨1⟩

def FuseError.NO_EXIST : FuseError := ⟨2⟩

/-- `FuseError::IO` in the source (named `IO_ERROR` here only because a bare
`IO` suffix collides with the Lean `IO` namespace). -/
def FuseError.IO_ERROR : FuseError := ⟨5⟩

/-- `FuseError::BAD_FD` as used by `Rfs::open_file` (EBADF). -/
def FuseError.BAD_FD : FuseError := ⟨9⟩

def FuseError.FILE_EXISTS : FuseError := ⟨17⟩

def FuseError.NOT_DIRECTORY : FuseError := ⟨20⟩

def FuseError.IS_DIRECTORY : FuseError := ⟨21⟩

def FuseError.INVALID_ARGUMENT : FuseError := ⟨22⟩

def FuseError.DIRECTORY_NOT_EMPTY : FuseError := ⟨39⟩

/-- `FuseError::NOT_IMPLEMENTED` as used by `Rfs::create` / `Rfs::remove`
(ENOSYS). -/
def FuseError.NOT_IMPLEMENTED : FuseError := ⟨38⟩

instance {ε α : Type} [DecidableEq ε] [DecidableEq α] : DecidableEq (Except ε α) := fun a b =>
  match a, b with
  | .ok x, .ok y =>
    match decEq x y with
    | isTrue h => isTrue (by rw [h])
    | isFalse h => isFalse (fun he => h (Except.ok.inj he))
  | .error x, .error y =>
    match decEq x y with
    | isTrue h => isTrue (by rw [h])
    | isFalse h => isFalse (fun he => h (Except.error.inj he))
  | .ok _, .error _ => isFalse (fun he => Except.noConfusion he)
  | .error _, .ok _ => isFalse (fun he => Except.noConfusion he)

/-- `fuser::FileAttr` (timestamps as Nat seconds). -/
structure FileAttr where
  ino : Nat
  size : Nat
  blocks : Nat
  atime : Nat
  mtime : Nat
  ctime : Nat
  crtime : Nat
  kind : FileType
  perm : Nat
  nlink : Nat
  uid : Nat
  gid : Nat
  rdev : Nat
  blksize : Nat
  flags : Nat
deriving DecidableEq

/-- `FileAttrBuilder` from src/inode.rs (`#[derive(Default)]`). -/
structure FileAttrBuilder where
  ino : Nat := 0
  size : Nat := 0
  blocks : Nat := 0
  atime : Option Nat := none
  mtime : Option Nat := none
  ctime : Option Nat := none
  crtime : Option Nat := none
  kind : Option FileType := none
  perm : Nat := 0
  nlink : Nat := 0
  uid : Nat := 0
  gid : Nat := 0
  rdev : Nat := 0
  blksize : Nat := 0
  flags : Nat := 0
deriving DecidableEq

def FileAttrBuilder.new : FileAttrBuilder := {}

def FileAttrBuilder.with_ino (b : FileAttrBuilder) (ino : Nat) : FileAttrBuilder :=
  { b with ino := ino }

def FileAttrBuilder.with_size (b : FileAttrBuilder) (size : Nat) : FileAttrBuilder :=
  { b with size := size }

def FileAttrBuilder.with_blocks (b : FileAttrBuilder) (blocks : Nat) : FileAttrBuilder :=
  { b with blocks := blocks }

def FileAttrBuilder.with_atime (b : FileAttrBuilder) (atime : Nat) : FileAttrBuilder :=
  { b with atime := some atime }

def FileAttrBuilder.with_mtime (b : FileAttrBuilder) (mtime : Nat) : FileAttrBuilder :=
  { b with mtime := some mtime }

def FileAttrBuilder.with_ctime (b : FileAttrBuilder) (ctime : Nat) : FileAttrBuilder :=
  { b with ctime := some ctime }

def FileAttrBuilder.with_crtime (b : FileAttrBuilder) (crtime : Nat) : FileAttrBuilder :=
  { b with crtime := some crtime }

def FileAttrBuilder.with_kind (b : FileAttrBuilder) (kind : FileType) : FileAttrBuilder :=
  { b with kind := some kind }

def FileAttrBuilder.with_perm (b : FileAttrBuilder) (perm : Nat) : FileAttrBuilder :=
  { b with perm := perm }

def FileAttrBuilder.with_nlink (b : FileAttrBuilder) (nlink : Nat) : FileAttrBuilder :=
  { b with nlink := nlink }

def FileAttrBuilder.with_uid (b : FileAttrBuilder) (uid : Nat) : FileAttrBuilder :=
  { b with uid := uid }

/-- `FileAttrBuilder::with_gid` exactly as written in src/inode.rs lines
178-181: the parameter is named `uid` and is assigned to the `uid` field —
the `gid` field is not touched.  (Embedded faithfully, slip included.) -/
def FileAttrBuilder.with_gid (b : FileAttrBuilder) (uid : Nat) : FileAttrBuilder :=
  { b with uid := uid }

def FileAttrBuilder.with_rdev (b : FileAttrBuilder) (rdev : Nat) : FileAttrBuilder :=
  { b with rdev := rdev }

def FileAttrBuilder.with_blksize (b : FileAttrBuilder) (blksize : Nat) : FileAttrBuilder :=
  { b with blksize := blksize }

def FileAttrBuilder.with_flags (b : FileAttrBuilder) (flags : Nat) : FileAttrBuilder :=
  { b with flags := flags }

/-- `FileAttrBuilder::build`.  The source calls `SystemTime::now()` once per
unset timestamp field; the model passes a single `now` reading. -/
def FileAttrBuilder.build (b : FileAttrBuilder) (now : Nat) : FileAttr :=
  { ino := b.ino
    size := b.size
    blocks := b.blocks
    atime := b.atime.getD now
    mtime := b.mtime.getD now
    ctime := b.ctime.getD now
    crtime := b.crtime.getD now
    kind := b.kind.getD FileType.RegularFile
    perm := b.perm
    nlink := b.nlink
    uid := b.uid
    gid := b.gid
    rdev := b.rdev
    blksize := b.blksize
    flags := b.flags }

/-- `OpenedHandlers` from src/inode.rs: raw descriptor plus refcount. -/
structure OpenedHandlers where
  fh : Nat
  count : Nat
deriving DecidableEq

/-- `Inode` as used by src/rfs.rs (the variant with an explicit `parent_id`
field). -/
structure Inode where
  proxy_path : FsPath
  origin_path : FsPath
  parent_id : Nat
  attr : FileAttr
  open_handles : Option OpenedHandlers
deriving DecidableEq

def Inode.new (path origin_path : FsPath) (parent_id : Nat) (attr : FileAttr) : Inode :=
  { proxy_path := path, origin_path := origin_path, parent_id := parent_id
    attr := attr, open_handles := none }

/-- The `InodeList` of src/rfs.rs: `HashMap<u64, RwLock<Inode>>` modelled as
an association list with unique keys. -/
structure InodeList where
  nodes : List (Nat × Inode)
deriving DecidableEq

/-- `HashMap::insert`: replaces the value when the key is present, otherwise
adds a new entry. -/
def setEntry (l : List (Nat × Inode)) (k : Nat) (v : Inode) : List (Nat × Inode) :=
  if l.any (fun p => p.1 == k) then l.map (fun p => if p.1 == k then (k, v) else p)
  else l ++ [(k, v)]

/-- `InodeList::insert` (src/rfs.rs lines 37-57): allocates
`id = list.len() + 1`, stamps it into the built attributes and stores the new
inode under that key.  (The petgraph variant in src/inode.rs lines 18-26
allocates the id identically, from `node_count() + 1`.) -/
def InodeList.insert (s : InodeList) (path origin_path : FsPath) (parent_id : Nat)
    (attr : FileAttrBuilder) (now : Nat) : Nat × InodeList :=
  let id := s.nodes.length + 1
  (id, ⟨setEntry s.nodes id (Inode.new path origin_path parent_id ((attr.with_ino id).build now))⟩)

/-- `Path::file_name` on the proxy paths the program builds: final component,
`none` for a path ending in `"."` or `".."`. -/
def file_name (p : FsPath) : Option String :=
  match p.getLast? with
  | none => none
  | some s => if s = "." ∨ s = ".." then none else some s

/-- The name a node answers to in `find_by_name`:
`proxy_path.file_name().unwrap_or("..")`. -/
def name_key (n : Inode) : String :=
  (file_name n.proxy_path).getD ".."

/-- `InodeListReadView::find_by_name` (src/rfs.rs lines 85-101). -/
def find_by_name (s : InodeList) (parent : Nat) (name : String) : Option (Nat × Inode) :=
  s.nodes.find? (fun p => p.2.parent_id == parent && name_key p.2 == name)

/-- `InodeListReadView::find_by_id` / `get`: lookup by key. -/
def find_by_id (s : InodeList) (ino : Nat) : Option (Nat × Inode) :=
  s.nodes.find? (fun p => p.1 == ino)

def InodeList.get (s : InodeList) (ino : Nat) : Option Inode :=
  (find_by_id s ino).map (·.2)

/-- `HashMap::remove`. -/
def InodeList.erase (s : InodeList) (id : Nat) : InodeList :=
  ⟨s.nodes.filter (fun p => p.1 != id)⟩

/-- Mutation of one inode in place through its `RwLock` (keys are unique, so
mapping every matching entry is the same as mutating the found one). -/
def InodeList.modify (s : InodeList) (id : Nat) (f : Inode → Inode) : InodeList :=
  ⟨s.nodes.map (fun p => if p.1 == id then (p.1, f p.2) else p)⟩

/-- `Rfs::init` (src/rfs.rs lines 156-178): inserts the root (parent id 0),
then the synthetic `"."` and `".."` children, all built from the same statted
attributes. -/
def init_graph (proxy_mount origin_mount proxy_parent : FsPath)
    (attr : FileAttrBuilder) (now : Nat) : InodeList :=
  let s0 : InodeList := ⟨[]⟩
  let r1 := s0.insert proxy_mount origin_mount 0 attr now
  let r2 := r1.2.insert ["."] origin_mount r1.1 attr now
  let r3 := r2.2.insert [".."] proxy_parent r1.1 attr now
  r3.2

/-- Model of the host origin filesystem as observed through the std `fs`
calls the dispatcher makes: a set of directories and a set of files with
contents.  `File::create` creates-or-truncates (O_CREAT|O_TRUNC|O_WRONLY) and
fails when the parent directory is absent; `fs::create_dir` fails when the
path already exists or the parent is absent; `fs::remove_file` /
`fs::remove_dir_all` fail when the path is absent. -/
structure OriginFS where
  dirs : List FsPath
  files : List (FsPath × List Nat)
deriving DecidableEq

def OriginFS.fileExists (o : OriginFS) (p : FsPath) : Bool :=
  o.files.any (fun f => f.1 == p)

def OriginFS.dirExists (o : OriginFS) (p : FsPath) : Bool :=
  o.dirs.any (fun d => d == p)

/-- `File::create(path)` (O_CREAT|O_TRUNC|O_WRONLY): succeeds on an existing
file by truncating it — no exclusivity — and otherwise creates it, failing
when the parent directory is absent. -/
def OriginFS.file_create (o : OriginFS) (p : FsPath) : Option OriginFS :=
  if o.fileExists p then
    some { o with files := o.files.map (fun f => if f.1 == p then (p, []) else f) }
  else if o.dirExists p.dropLast then
    some { o with files := o.files ++ [(p, [])] }
  else none

/-- `fs::create_dir(path)`: fails when the path exists (EEXIST) or the
parent directory is absent. -/
def OriginFS.create_dir (o : OriginFS) (p : FsPath) : Option OriginFS :=
  if o.dirExists p || o.fileExists p then none
  else if o.dirExists p.dropLast then some { o with dirs := o.dirs ++ [p] }
  else none

/-- `fs::remove_file(path)`. -/
def OriginFS.remove_file (o : OriginFS) (p : FsPath) : Option OriginFS :=
  if o.fileExists p then some { o with files := o.files.filter (fun f => f.1 != p) }
  else none

def under (root p : FsPath) : Bool :=
  p.take root.length == root

/-- `fs::remove_dir_all(path)`. -/
def OriginFS.remove_dir_all (o : OriginFS) (p : FsPath) : Option OriginFS :=
  if o.dirExists p then
    some { dirs := o.dirs.filter (fun d => !under p d)
           files := o.files.filter (fun f => !under p f.1) }
  else none

/-- Helper for the tail of `Rfs::create` (attribute construction, insertion,
and the final read-back of the stored inode). -/
def finishCreate (s : InodeList) (origin' : OriginFS) (proxy_path origin_path : FsPath)
    (parent_ino mode : Nat) (kind : FileType) (now : Nat) :
    (Except FuseError FileAttr) × InodeList × OriginFS :=
  let attr := (FileAttrBuilder.new.with_kind kind).with_perm (mode % 65536)
  let r := s.insert proxy_path origin_path parent_ino attr now
  match r.2.get r.1 with
  | none => (.error FuseError.IO_ERROR, r.2, origin')
  | some node => (.ok node.attr, r.2, origin')

/-- `Rfs::create` (src/rfs.rs lines 211-263).  `mode as u16` is the
truncating cast `mode % 65536`.  The read-view `find_by_name` of the source
can only fail with `NO_EXIST`, so the `Err(error) => return Err(error)` arm
is unreachable and the lookup is modelled as an Option. -/
def Rfs.create (s : InodeList) (origin : OriginFS) (name : String) (parent_ino mode : Nat)
    (kind : FileType) (lastErr : FuseError) (now : Nat) :
    (Except FuseError FileAttr) × InodeList × OriginFS :=
  match find_by_name s parent_ino name with
  | some _ => (.error FuseError.FILE_EXISTS, s, origin)
  | none =>
    match find_by_id s parent_ino with
    | none => (.error FuseError.NO_EXIST, s, origin)
    | some kn =>
      let proxy_path := kn.2.proxy_path ++ [name]
      let origin_path := kn.2.origin_path ++ [name]
      match kind with
      | .RegularFile =>
        match origin.file_create origin_path with
        | none => (.error lastErr, s, origin)
        | some o' => finishCreate s o' proxy_path origin_path parent_ino mode kind now
      | .Directory =>
        match origin.create_dir origin_path with
        | none => (.error lastErr, s, origin)
        | some o' => finishCreate s o' proxy_path origin_path parent_ino mode kind now
      | .Symlink => (.error FuseError.NOT_IMPLEMENTED, s, origin)

/-- `Rfs::remove` (src/rfs.rs lines 384-408).  The inode is taken out of the
map (`HashMap::remove`) *before* the host removal is attempted; when the host
call fails the error propagates with the map already mutated, so the state is
returned alongside the result in every case. -/
def Rfs.remove (s : InodeList) (origin : OriginFS) (id : Nat) (lastErr : FuseError) :
    (Except FuseError Unit) × InodeList × OriginFS :=
  match s.get id with
  | none => (.error FuseError.NO_EXIST, s, origin)
  | some inode =>
    let s1 := s.erase id
    match inode.attr.kind with
    | .RegularFile =>
      match origin.remove_file inode.origin_path with
      | some o' => (.ok (), s1, o')
      | none => (.error lastErr, s1, origin)
    | .Directory =>
      let s2 : InodeList := ⟨s1.nodes.filter (fun p => p.2.parent_id != inode.attr.ino)⟩
      match origin.remove_dir_all inode.origin_path with
      | some o' => (.ok (), s2, o')
      | none => (.error lastErr, s2, origin)
    | .Symlink => (.error FuseError.NOT_IMPLEMENTED, s1, origin)

/-- `Filesystem::unlink` for `Rfs` (src/fuse.rs lines 467-492). -/
def fuse_unlink (s : InodeList) (origin : OriginFS) (parent : Nat) (name : String)
    (lastErr : FuseError) : (Except FuseError Unit) × InodeList × OriginFS :=
  match find_by_name s parent name with
  | none => (.error FuseError.NO_EXIST, s, origin)
  | some kn =>
    if kn.2.attr.kind ≠ FileType.RegularFile then (.error FuseError.IS_DIRECTORY, s, origin)
    else Rfs.remove s origin kn.2.attr.ino lastErr

/-- `Filesystem::lookup` for `Rfs` (src/fuse.rs lines 40-53). -/
def fuse_lookup (s : InodeList) (parent : Nat) (name : String) : Except FuseError FileAttr :=
  match find_by_name s parent name with
  | none => .error FuseError.NO_EXIST
  | some kn => .ok kn.2.attr

/-- `fuser::TimeOrNow`. -/
inductive TimeOrNow where
  | SpecificTime (t : Nat)
  | Now
deriving DecidableEq

/-- `Filesystem::setattr` for `Rfs` (src/fuse.rs lines 70-126), embedded
branch by branch.  The `mode/uid/gid/size/fh/chgtime/bkuptime/flags`
arguments are received and ignored, exactly as the source's underscore
bindings do.  Note the `ctime` branch of the source assigns the supplied
value to `inode.attr.mtime`. -/
def fuse_setattr (s : InodeList) (ino : Nat)
    (_mode _uid _gid : Option Nat) (_size : Option Nat)
    (atime mtime : Option TimeOrNow) (ctime : Option Nat) (_fh : Option Nat)
    (crtime _chgtime _bkuptime : Option Nat) (_flags : Option Nat) (now : Nat) :
    (Except FuseError FileAttr) × InodeList :=
  match find_by_id s ino with
  | none => (.error FuseError.NO_EXIST, s)
  | some kn =>
    let a0 := kn.2.attr
    let a1 := match atime with
      | some (.SpecificTime t) => { a0 with atime := t }
      | some .Now => { a0 with atime := now }
      | none => a0
    let a2 := match mtime with
      | some (.SpecificTime t) => { a1 with mtime := t }
      | some .Now => { a1 with mtime := now }
      | none => a1
    let a3 := match ctime with
      | some t => { a2 with mtime := t }
      | none => a2
    let a4 := match crtime with
      | some t => { a3 with crtime := t }
      | none => a3
    (.ok a4, s.modify ino (fun n => { n with attr := a4 }))

def fn_check_access_read (fh : Nat) : Bool :=
  fh &&& 1 != 0

def fn_check_access_write (fh : Nat) : Bool :=
  fh &&& (1 <<< 1) != 0

/-- The access/descriptor gate of `Rfs::open_file` (src/rfs.rs lines
348-370); on success it yields the stored raw descriptor. -/
def open_file (fh : Nat) (read write : Bool) (handles : Option OpenedHandlers) :
    Except FuseError Nat :=
  if read && !fn_check_access_read fh then .error FuseError.OPERATION_NOT_PERMITTED
  else if write && !fn_check_access_write fh then .error FuseError.OPERATION_NOT_PERMITTED
  else
    match handles with
    | none => .error FuseError.BAD_FD
    | some oh => .ok oh.fh

/-- The u64 handle encoding of `Rfs::allocate_fh`:
`(count << 2) | u64::from(read) | (u64::from(write) << 1)`, with the shift
wrapping at 64 bits. -/
def packFh (count : Nat) (read write : Bool) : Nat :=
  ((count <<< 2) % 2 ^ 64) ||| (if read then 1 else 0) ||| ((if write then 1 else 0) <<< 1)

/-- `Rfs::allocate_fh` (src/rfs.rs lines 313-346).  `hostOpen` is the result
of `File::options().read(read).write(write).open(origin_path)` — it yields the
fresh raw descriptor on success.  The u64 refcount increments modulo 2^64. -/
def allocate_fh (s : InodeList) (ino : Nat) (read write : Bool)
    (hostOpen : Except Unit Nat) (lastErr : FuseError) : (Except FuseError Nat) × InodeList :=
  match find_by_id s ino with
  | none => (.error FuseError.NO_EXIST, s)
  | some kn =>
    match kn.2.open_handles with
    | some oh =>
      let count := (oh.count + 1) % 2 ^ 64
      (.ok (packFh count read write),
       s.modify ino (fun n => { n with open_handles := some ⟨oh.fh, count⟩ }))
    | none =>
      match hostOpen with
      | .error _ => (.error lastErr, s)
      | .ok fd =>
        (.ok (packFh 1 read write),
         s.modify ino (fun n => { n with open_handles := some ⟨fd, 1⟩ }))

/-- Decoding of `flags & libc::O_ACCMODE` shared by `Filesystem::open` and
`Filesystem::create`: `(read, write)` for O_RDONLY / O_WRONLY / O_RDWR, and
`none` (EINVAL) otherwise. -/
def decodeAccess (flags : Nat) : Option (Bool × Bool) :=
  match flags &&& 3 with
  | 0 => some (true, false)
  | 1 => some (false, true)
  | 2 => some (true, true)
  | _ => none

/-- `Filesystem::open` for `Rfs` (src/fuse.rs lines 182-203). -/
def fuse_open (s : InodeList) (ino flags : Nat) (hostOpen : Except Unit Nat)
    (lastErr : FuseError) : (Except FuseError Nat) × InodeList :=
  match decodeAccess flags with
  | none => (.error FuseError.INVALID_ARGUMENT, s)
  | some rw => allocate_fh s ino rw.1 rw.2 hostOpen lastErr

/-- `Filesystem::read` for `Rfs` (src/fuse.rs lines 205-261).  `content` is
the current bytes of the origin file behind the shared descriptor
(`file.metadata().len()` is its length).  A negative `offset` makes the
source panic on `u64::try_from(offset).unwrap()` and is not modelled; the
in-bounds `read_exact_at` cannot fail and is computed from `content`. -/
def fuse_read (s : InodeList) (content : List Nat) (ino fh : Nat) (offset : Int)
    (size : Nat) : Except FuseError (List Nat) :=
  match find_by_id s ino with
  | none => .error FuseError.NO_EXIST
  | some kn =>
    match open_file fh true false kn.2.open_handles with
    | .error e => .error e
    | .ok _ =>
      let len := content.length
      let off := offset.toNat
      let amount := min (len - off) size
      .ok ((content.drop off).take amount)

/-- Results of the two host calls `file.seek(SeekFrom::Start(..))` and
`file.write(data)` inside `Filesystem::write`; on success the host reports
how many bytes it actually wrote (short writes permitted). -/
structure WriteHost where
  seekRes : Except Unit Unit
  writeRes : Except Unit Nat
deriving DecidableEq

/-- `offset as usize` / `offset as u64` on an i64: wrapping cast. -/
def usizeOfI64 (i : Int) : Nat :=
  (i % (2 : Int) ^ 64).toNat

/-- Contents of the origin file after writing `bytes` at position `off`. -/
def writeAt (content : List Nat) (off : Nat) (bytes : List Nat) : List Nat :=
  content.take off ++ bytes ++ content.drop (off + bytes.length)

/-- `Filesystem::write` for `Rfs` (src/fuse.rs lines 263-331).  Mirrors the
source order: resolve the inode, gate on the access bits in `fh`
(`open_file(.., false, true)`), reject `offset` beyond the current file
length (INVALID_ARGUMENT), seek, write, then update `attr.size` and stamp
`ctime`/`mtime`; the reply is `written as u32`. -/
def fuse_write (s : InodeList) (content : List Nat) (ino fh : Nat) (offset : Int)
    (data : List Nat) (host : WriteHost) (lastErr : FuseError) (now : Nat) :
    (Except FuseError Nat) × InodeList × List Nat :=
  match find_by_id s ino with
  | none => (.error FuseError.NO_EXIST, s, content)
  | some kn =>
    match open_file fh false true kn.2.open_handles with
    | .error e => (.error e, s, content)
    | .ok _ =>
      if offset > (content.length : Int) then (.error FuseError.INVALID_ARGUMENT, s, content)
      else
        match host.seekRes with
        | .error _ => (.error lastErr, s, content)
        | .ok _ =>
          match host.writeRes with
          | .error _ => (.error lastErr, s, content)
          | .ok written =>
            let off := usizeOfI64 offset
            let content' := writeAt content off (data.take written)
            let s' := s.modify ino (fun n =>
              let size' := if data.length + off > n.attr.size then data.length + off
                           else n.attr.size
              { n with attr := { n.attr with size := size', ctime := now, mtime := now } })
            (.ok (written % 2 ^ 32), s', content')

/-- `ScanResult` of the external scanner. -/
inductive ScanResult where
  | Clean
  | Whitelisted
  | Virus
deriving DecidableEq

/-- The environment of directory ingestion: the scanner verdict function, the
`stat` of origin entries (a host call that may fail), the two mount roots for
path translation, the clock and the current host errno. -/
structure IngestCtx where
  scan : FsPath → Except Unit ScanResult
  statf : FsPath → Except FuseError FileAttrBuilder
  proxy_mount : FsPath
  origin_mount : FsPath
  now : Nat
  lastErr : FuseError

/-- `Rfs::origin_path_to_proxy_path`: rebases an origin-rooted path onto the
proxy root.  (The source unwraps the root-removal and panics when `item` is
not under the origin root; callers only hand in origin-rooted paths.) -/
def origin_path_to_proxy_path (ctx : IngestCtx) (item : FsPath) : FsPath :=
  ctx.proxy_mount ++ item.drop ctx.origin_mount.length

/-- `Rfs::insert_item` (src/rfs.rs lines 265-290): scan, then stat, then
insert — a virus verdict maps to OPERATION_NOT_PERMITTED, a scanner error to
IO, and nothing at all is inserted on any error. -/
def insert_item (ctx : IngestCtx) (item : FsPath) (parent_ino : Nat) (s : InodeList) :
    Except FuseError InodeList :=
  let proxy_path := origin_path_to_proxy_path ctx item
  match ctx.scan item with
  | .error _ => .error FuseError.IO_ERROR
  | .ok .Virus => .error FuseError.OPERATION_NOT_PERMITTED
  | .ok .Clean =>
    match ctx.statf item with
    | .error e => .error e
    | .ok attr => .ok (s.insert proxy_path item parent_ino attr ctx.now).2
  | .ok .Whitelisted =>
    match ctx.statf item with
    | .error e => .error e
    | .ok attr => .ok (s.insert proxy_path item parent_ino attr ctx.now).2

/-- `Rfs::add_folder` (src/rfs.rs lines 292-311) over an already-obtained
`read_dir` listing (`entries`; a failing individual entry is the
`Err(_) => return Err(last())` arm).  An OPERATION_NOT_PERMITTED from
`insert_item` is swallowed and the enumeration continues; every other error
aborts. -/
def add_folder (ctx : IngestCtx) (entries : List (Except Unit FsPath)) (ino : Nat)
    (s : InodeList) : Except FuseError InodeList :=
  match entries with
  | [] => .ok s
  | .error _ :: _ => .error ctx.lastErr
  | .ok item :: rest =>
    match insert_item ctx item ino s with
    | .ok s' => add_folder ctx rest ino s'
    | .error e =>
      if e = FuseError.OPERATION_NOT_PERMITTED then add_folder ctx rest ino s
      else .error e

/-! Concrete fixtures used by counterexamples and witnesses. -/

def exRootAttr : FileAttr := ((FileAttrBuilder.new.with_kind .Directory).with_ino 1).build 0

def exRoot : Inode := Inode.new [] [] 0 exRootAttr

def exGraph1 : InodeList := ⟨[(1, exRoot)]⟩

def exFileAttr : FileAttr := ((FileAttrBuilder.new.with_kind .RegularFile).with_ino 2).build 0

def exFile : Inode := Inode.new ["f"] ["o", "f"] 1 exFileAttr

def exGraph2 : InodeList := ⟨[(1, exRoot), (2, exFile)]⟩

def exOpenFile : Inode := { exFile with open_handles := some ⟨7, 1⟩ }

def exGraph3 : InodeList := ⟨[(1, exRoot), (2, exOpenFile)]⟩

def exOrigin5 : OriginFS := ⟨[[]], [(["a"], [9])]⟩

def exOrigin6 : OriginFS := ⟨[["o"]], []⟩

def exCtxClean : IngestCtx :=
  ⟨fun _ => .ok .Clean, fun _ => .ok FileAttrBuilder.new, [], [], 0, ⟨5⟩⟩

def exCtx2 : IngestCtx :=
  ⟨fun p => if p = ["v"] then .ok .Virus else if p = ["bad"] then .error () else .ok .Clean,
   fun _ => .ok FileAttrBuilder.new, [], [], 0, ⟨5⟩⟩

/-! General lemmas about the embedded operations. -/

theorem mem_setEntry {l : List (Nat × Inode)} {k : Nat} {v : Inode} {x : Nat × Inode}
    (hx : x ∈ setEntry l k v) : x ∈ l ∨ x = (k, v) := by
  unfold setEntry at hx
  by_cases h : l.any (fun p => p.1 == k)
  · rw [if_pos h] at hx
    obtain ⟨p, hp, hpe⟩ := List.mem_map.mp hx
    by_cases hk : p.1 == k
    · rw [if_pos hk] at hpe
      exact Or.inr hpe.symm
    · rw [if_neg hk] at hpe
      exact Or.inl (hpe ▸ hp)
  · rw [if_neg h] at hx
    rcases List.mem_append.mp hx with h1 | h1
    · exact Or.inl h1
    · exact Or.inr (List.mem_singleton.mp h1)

theorem find?_replaceAll {l : List (Nat × Inode)} {k : Nat} (v : Inode)
    (h : l.any (fun p => p.1 == k) = true) :
    (l.map (fun p => if p.1 == k then (k, v) else p)).find? (fun p => p.1 == k) = some (k, v) := by
  induction l with
  | nil => simp at h
  | cons hd tl ih =>
    by_cases hk : (hd.1 == k) = true
    · rw [List.map_cons, if_pos hk]
      simp [List.find?_cons]
    · have hk' : (hd.1 == k) = false := by rwa [Bool.not_eq_true] at hk
      rw [List.map_cons, if_neg hk]
      simp only [List.find?_cons, hk']
      simp only [List.any_cons, Bool.or_eq_true] at h
      rcases h with h | h
      · exact absurd h hk
      · exact ih h

theorem find?_appendNew {l : List (Nat × Inode)} {k : Nat} (v : Inode)
    (h : l.any (fun p => p.1 == k) = false) :
    (l ++ [(k, v)]).find? (fun p => p.1 == k) = some (k, v) := by
  induction l with
  | nil => simp [List.find?_cons]
  | cons hd tl ih =>
    simp only [List.any_cons, Bool.or_eq_false_iff] at h
    rw [List.cons_append]
    simp only [List.find?_cons, h.1]
    exact ih h.2

theorem find?_setEntry (l : List (Nat × Inode)) (k : Nat) (v : Inode) :
    (setEntry l k v).find? (fun p => p.1 == k) = some (k, v) := by
  unfold setEntry
  by_cases h : l.any (fun p => p.1 == k)
  · rw [if_pos h]; exact find?_replaceAll v h
  · rw [if_neg h]
    exact find?_appendNew v (by rwa [Bool.not_eq_true] at h)

/-- The inode stored by `InodeList::insert` is readable back under the
allocated id, and it is exactly the freshly built one. -/
theorem get_insert (s : InodeList) (p o : FsPath) (pid : Nat) (b : FileAttrBuilder) (now : Nat) :
    (s.insert p o pid b now).2.get (s.insert p o pid b now).1
      = some (Inode.new p o pid ((b.with_ino (s.nodes.length + 1)).build now)) := by
  unfold InodeList.insert InodeList.get find_by_id
  simp [find?_setEntry]

theorem get_erase (s : InodeList) (id : Nat) : (s.erase id).get id = none := by
  unfold InodeList.erase InodeList.get find_by_id
  have h : (s.nodes.filter (fun p => p.1 != id)).find? (fun p => p.1 == id) = none := by
    rw [List.find?_eq_none]
    intro x hx
    have h2 := (List.mem_filter.mp hx).2
    simp only [bne_iff_ne, ne_eq] at h2
    simp [h2]
  rw [h]
  rfl

theorem get_modify (s : InodeList) (id : Nat) (f : Inode → Inode) :
    (s.modify id f).get id = (s.get id).map f := by
  unfold InodeList.modify InodeList.get find_by_id
  induction s.nodes with
  | nil => simp
  | cons hd tl ih =>
    by_cases hk : hd.1 == id
    · simp [List.find?, hk]
    · simpa [List.find?, hk] using ih

/-- A successful `insert_item` is exactly an insertion of the statted entry
under the translated proxy path. -/
theorem insert_item_ok {ctx : IngestCtx} {item : FsPath} {ino : Nat} {s s2 : InodeList}
    (h : insert_item ctx item ino s = .ok s2) :
    ∃ b, ctx.statf item = .ok b ∧
      s2 = (s.insert (origin_path_to_proxy_path ctx item) item ino b ctx.now).2 := by
  unfold insert_item at h
  cases hscan : ctx.scan item with
  | error u => rw [hscan] at h; exact absurd h (by simp)
  | ok sr =>
    rw [hscan] at h
    cases sr with
    | Virus => exact absurd h (by simp)
    | Clean =>
      cases hstat : ctx.statf item with
      | error e => rw [hstat] at h; exact absurd h (by simp)
      | ok b =>
        rw [hstat] at h
        exact ⟨b, rfl, (Except.ok.inj h).symm⟩
    | Whitelisted =>
      cases hstat : ctx.statf item with
      | error e => rw [hstat] at h; exact absurd h (by simp)
      | ok b =>
        rw [hstat] at h
        exact ⟨b, rfl, (Except.ok.inj h).symm⟩

/-- Every node present after `add_folder` was either already in the graph or
was inserted for one of the listed entries (as a child of `ino`, under the
entry's translated proxy path). -/
theorem add_folder_mem {ctx : IngestCtx} {entries : List (Except Unit FsPath)} {ino : Nat}
    {s s' : InodeList} (h : add_folder ctx entries ino s = .ok s') :
    ∀ x ∈ s'.nodes, x ∈ s.nodes ∨
      (x.2.parent_id = ino ∧ ∃ y, Except.ok y ∈ entries ∧
        x.2.proxy_path = origin_path_to_proxy_path ctx y) := by
  induction entries generalizing s with
  | nil =>
    simp only [add_folder] at h
    intro x hx
    exact Or.inl ((Except.ok.inj h) ▸ hx)
  | cons e rest ih =>
    cases e with
    | error u => exact absurd h (by simp [add_folder])
    | ok item =>
      simp only [add_folder] at h
      cases hins : insert_item ctx item ino s with
      | ok s2 =>
        rw [hins] at h
        intro x hx
        rcases ih h x hx with hx2 | ⟨hpar, y, hy, hpath⟩
        · obtain ⟨b, _, hs2⟩ := insert_item_ok hins
          rw [hs2] at hx2
          rcases mem_setEntry hx2 with hxs | hxe
          · exact Or.inl hxs
          · refine Or.inr ⟨?_, item, List.mem_cons_self _ _, ?_⟩ <;> rw [hxe] <;> rfl
        · exact Or.inr ⟨hpar, y, List.mem_cons_of_mem _ hy, hpath⟩
      | error e' =>
        rw [hins] at h
        have h2 : (if e' = FuseError.OPERATION_NOT_PERMITTED then add_folder ctx rest ino s
            else Except.error e') = Except.ok s' := h
        by_cases he : e' = FuseError.OPERATION_NOT_PERMITTED
        · rw [if_pos he] at h2
          intro x hx
          rcases ih h2 x hx with hx2 | ⟨hpar, y, hy, hpath⟩
          · exact Or.inl hx2
          · exact Or.inr ⟨hpar, y, List.mem_cons_of_mem _ hy, hpath⟩
        · rw [if_neg he] at h2
          exact absurd h2 (by simp)

theorem testBit_one_packFh (c : Nat) (r w : Bool) : (packFh c r w).testBit 1 = w := by
  unfold packFh
  rw [Nat.testBit_or, Nat.testBit_or]
  have h1 : ((c <<< 2) % 2 ^ 64).testBit 1 = false := by
    rw [Nat.shiftLeft_eq]
    have h2 : c * 2 ^ 2 % 2 ^ 64 = c % 2 ^ 62 * 2 ^ 2 := by
      have h3 : (2 : Nat) ^ 64 = 2 ^ 62 * 2 ^ 2 := by norm_num
      rw [h3, Nat.mul_mod_mul_right]
    rw [h2, Nat.testBit_to_div_mod]
    simp only [decide_eq_false_iff_not]
    omega
  rw [h1]
  cases r <;> cases w <;> decide

theorem testBit_zero_packFh (c : Nat) (r w : Bool) : (packFh c r w).testBit 0 = r := by
  unfold packFh
  rw [Nat.testBit_or, Nat.testBit_or]
  have h1 : ((c <<< 2) % 2 ^ 64).testBit 0 = false := by
    rw [Nat.shiftLeft_eq]
    have h2 : c * 2 ^ 2 % 2 ^ 64 = c % 2 ^ 62 * 2 ^ 2 := by
      have h3 : (2 : Nat) ^ 64 = 2 ^ 62 * 2 ^ 2 := by norm_num
      rw [h3, Nat.mul_mod_mul_right]
    rw [h2, Nat.testBit_to_div_mod]
    simp only [decide_eq_false_iff_not]
    omega
  rw [h1]
  cases r <;> cases w <;> decide

/-- The write bit decoded from a packed handle is exactly the `write` access
bit that was encoded. -/
theorem fn_check_access_write_packFh (c : Nat) (r w : Bool) :
    fn_check_access_write (packFh c r w) = w := by
  unfold fn_check_access_write
  rw [show (1 <<< 1 : Nat) = 2 ^ 1 from rfl, Nat.and_two_pow, testBit_one_packFh]
  cases w <;> simp

/-- The read bit decoded from a packed handle is exactly the `read` access
bit that was encoded. -/
theorem fn_check_access_read_packFh (c : Nat) (r w : Bool) :
    fn_check_access_read (packFh c r w) = r := by
  unfold fn_check_access_read
  rw [show (1 : Nat) = 2 ^ 0 from rfl, Nat.and_two_pow, testBit_zero_packFh]
  cases r <;> simp

/-- Every handle a successful `allocate_fh` returns is a packed
`(count, read, write)` encoding. -/
theorem allocate_fh_ok_shape {s : InodeList} {ino : Nat} {r w : Bool}
    {ho : Except Unit Nat} {le : FuseError} {fh : Nat} {s' : InodeList}
    (h : allocate_fh s ino r w ho le = (.ok fh, s')) : ∃ c, fh = packFh c r w := by
  unfold allocate_fh at h
  cases hf : find_by_id s ino with
  | none =>
    simp only [hf] at h
    exact absurd (congrArg Prod.fst h) (by simp)
  | some kn =>
    simp only [hf] at h
    cases hoh : kn.2.open_handles with
    | some oh =>
      simp only [hoh] at h
      exact ⟨(oh.count + 1) % 2 ^ 64, (Except.ok.inj (congrArg Prod.fst h)).symm⟩
    | none =>
      simp only [hoh] at h
      cases ho with
      | error u => exact absurd (congrArg Prod.fst h) (by simp)
      | ok fd => exact ⟨1, (Except.ok.inj (congrArg Prod.fst h)).symm⟩

/-! Claim theorems. -/

/-- Claim C10: the claim says `with_gid` sets the gid field and only the gid
field.  Evaluating the embedded builder at the failing input g = 5 shows the
source instead leaves gid at its prior value 0 and overwrites uid with 5. -/
theorem claim10_with_gid_bug :
    ((FileAttrBuilder.new.with_gid 5).build 0).gid = 0 ∧
    ((FileAttrBuilder.new.with_gid 5).build 0).uid = 5 := by
  decide

/-- Claim C4: the claim says supplying only `ctime` to setattr changes
`attr.ctime` and nothing else.  Evaluating the embedded setattr on an inode
with mtime 5 and ctime 7, supplying only ctime := 42, shows the source
instead writes 42 into `attr.mtime` and leaves `attr.ctime` at 7 (the other
timestamp fields are also unchanged). -/
theorem claim4_setattr_ctime_bug :
    ((fuse_setattr ⟨[(1, Inode.new ["p"] ["o"] 0
          (((FileAttrBuilder.new.with_mtime 5).with_ctime 7).build 0))]⟩
        1 none none none none none none (some 42) none none none none none 99).1.map
      (fun a => (a.mtime, a.ctime, a.atime, a.crtime, a.size)))
      = Except.ok (42, 7, 0, 0, 0) := by
  decide

/-- Claim C1: the claim says an id allocated by insert is distinct from the
id of every node that is or ever was in the graph (never reused).  Evaluating
the embedded code at the failing input — init (ids 1, 2, 3), a successful
remove of id 2, then one insert — shows the insert allocates
`id = len + 1 = 3`, which is both the id of the still-live `".."` node and an
id already allocated by init. -/
theorem claim1_id_reuse :
    (Rfs.remove (init_graph ["p"] ["o"] [] FileAttrBuilder.new 0)
        ⟨[], [(["o"], [])]⟩ 2 ⟨5⟩).1 = Except.ok () ∧
    ((Rfs.remove (init_graph ["p"] ["o"] [] FileAttrBuilder.new 0)
        ⟨[], [(["o"], [])]⟩ 2 ⟨5⟩).2.1.insert ["p", "x"] ["o", "x"] 1 FileAttrBuilder.new 0).1
      = 3 ∧
    ((Rfs.remove (init_graph ["p"] ["o"] [] FileAttrBuilder.new 0)
        ⟨[], [(["o"], [])]⟩ 2 ⟨5⟩).2.1.nodes.any (fun kn => kn.1 == 3)) = true ∧
    ((init_graph ["p"] ["o"] [] FileAttrBuilder.new 0).nodes.any (fun kn => kn.1 == 3)) = true := by
  decide

/-- Claim C2: during `add_folder` ingestion, an entry the scanner classifies
as infected is skipped — `insert_item` fails OPERATION_NOT_PERMITTED without
inserting, the enumeration simply continues as if the entry were absent
(`add_folder` of the entry-plus-rest equals `add_folder` of the rest), and a
later lookup of the entry's name fails NO_EXIST provided no prior child and
no other listed entry carries that basename; a scanner error instead maps to
IO and aborts the whole directory ingestion. -/
theorem claim2_scanner_verdicts (ctx : IngestCtx) (x : FsPath)
    (rest : List (Except Unit FsPath)) (ino : Nat) (s : InodeList) (bname : String)
    (hvirus : ctx.scan x = .ok .Virus)
    (_hb : bname = (file_name (origin_path_to_proxy_path ctx x)).getD "..") :
    insert_item ctx x ino s = .error FuseError.OPERATION_NOT_PERMITTED
    ∧ add_folder ctx (.ok x :: rest) ino s = add_folder ctx rest ino s
    ∧ (∀ s', add_folder ctx (.ok x :: rest) ino s = .ok s' →
        (∀ p ∈ s.nodes, ¬(p.2.parent_id = ino ∧ name_key p.2 = bname)) →
        (∀ y, Except.ok y ∈ rest →
           (file_name (origin_path_to_proxy_path ctx y)).getD ".." ≠ bname) →
        fuse_lookup s' ino bname = .error FuseError.NO_EXIST)
    ∧ (∀ (y : FsPath) (rest2 : List (Except Unit FsPath)), ctx.scan y = .error () →
        add_folder ctx (.ok y :: rest2) ino s = .error FuseError.IO_ERROR) := by
  have hskip : insert_item ctx x ino s = .error FuseError.OPERATION_NOT_PERMITTED := by
    simp [insert_item, hvirus]
  have hcont : add_folder ctx (.ok x :: rest) ino s = add_folder ctx rest ino s := by
    simp only [add_folder, hskip]
    simp
  refine ⟨hskip, hcont, ?_, ?_⟩
  · intro s' hok0 hprev hothers
    rw [hcont] at hok0
    have hok := hok0
    have hnone : find_by_name s' ino bname = none := by
      unfold find_by_name
      rw [List.find?_eq_none]
      intro p hp
      rcases add_folder_mem hok p hp with hps | ⟨hpar, y, hy, hpath⟩
      · intro hpred
        simp only [Bool.and_eq_true, beq_iff_eq] at hpred
        exact hprev p hps hpred
      · intro hpred
        simp only [Bool.and_eq_true, beq_iff_eq] at hpred
        refine hothers y hy ?_
        rw [← hpred.2]
        unfold name_key
        rw [hpath]
    unfold fuse_lookup
    rw [hnone]
  · intro y rest2 hscanerr
    have herr : insert_item ctx y ino s = .error FuseError.IO_ERROR := by
      simp [insert_item, hscanerr]
    simp only [add_folder, herr]
    rw [if_neg (by decide)]

/-- Witness for `claim2_scanner_verdicts`: the scanner flags `["v"]` as a
virus and errors on `["bad"]`; the clean sibling `["c"]` is ingested, the
infected entry is skipped, its lookup fails NO_EXIST and the scanner error
aborts with IO. -/
theorem claim2_scanner_verdicts_witness :
    insert_item exCtx2 ["v"] 1 exGraph1 = .error FuseError.OPERATION_NOT_PERMITTED
    ∧ add_folder exCtx2 [.ok ["v"], .ok ["c"]] 1 exGraph1
        = add_folder exCtx2 [.ok ["c"]] 1 exGraph1
    ∧ fuse_lookup (exGraph1.insert ["c"] ["c"] 1 FileAttrBuilder.new 0).2 1 "v"
        = .error FuseError.NO_EXIST
    ∧ add_folder exCtx2 [.ok ["bad"]] 1 exGraph1 = .error FuseError.IO_ERROR := by
  have h := claim2_scanner_verdicts exCtx2 ["v"] [.ok ["c"]] 1 exGraph1 "v" rfl rfl
  refine ⟨h.1, h.2.1, ?_, h.2.2.2 ["bad"] [] rfl⟩
  refine h.2.2.1 _ rfl ?_ ?_
  · intro p hp
    rcases List.mem_singleton.mp hp with rfl
    decide
  · intro y hy
    rcases List.mem_singleton.mp hy with h'
    rcases Except.ok.inj h' with rfl
    decide

/-- Claim C7: for every file handle value, write fails OPERATION_NOT_PERMITTED
when bit 1 (write allowed) of the handle is clear — with the graph and the
file contents unchanged — and read fails OPERATION_NOT_PERMITTED when bit 0
(read allowed) is clear (read never mutates by construction); moreover a
handle returned by a successful open with O_RDONLY access bits always has
bit 1 clear, so such a handle can never complete a write. -/
theorem claim7_access_gate (s : InodeList) (content : List Nat) (ino fh : Nat)
    (offset : Int) (size : Nat) (data : List Nat) (host : WriteHost)
    (lastErr : FuseError) (now : Nat) (kn : Nat × Inode)
    (hfind : find_by_id s ino = some kn) :
    (fn_check_access_write fh = false →
       fuse_write s content ino fh offset data host lastErr now
         = (.error FuseError.OPERATION_NOT_PERMITTED, s, content))
    ∧ (fn_check_access_read fh = false →
       fuse_read s content ino fh offset size = .error FuseError.OPERATION_NOT_PERMITTED)
    ∧ (∀ (flags : Nat) (hostOpen : Except Unit Nat) (fh' : Nat) (s' : InodeList),
        flags &&& 3 = 0 →
        fuse_open s ino flags hostOpen lastErr = (.ok fh', s') →
        fn_check_access_write fh' = false) := by
  refine ⟨?_, ?_, ?_⟩
  · intro hw
    have hof : open_file fh false true kn.2.open_handles
        = .error FuseError.OPERATION_NOT_PERMITTED := by
      simp [open_file, hw]
    simp only [fuse_write, hfind, hof]
  · intro hr
    have hof : open_file fh true false kn.2.open_handles
        = .error FuseError.OPERATION_NOT_PERMITTED := by
      simp [open_file, hr]
    simp only [fuse_read, hfind, hof]
  · intro flags hostOpen fh' s' hflags hopen
    have hdec : decodeAccess flags = some (true, false) := by
      unfold decodeAccess
      rw [hflags]
    rw [show fuse_open s ino flags hostOpen lastErr
          = allocate_fh s ino true false hostOpen lastErr by
        simp only [fuse_open, hdec]] at hopen
    obtain ⟨c, rfl⟩ := allocate_fh_ok_shape hopen
    exact fn_check_access_write_packFh c true false

/-- Witness for `claim7_access_gate`: handle 4 = `packFh 1 false false` has
both access bits clear; inode 2 of the fixture graph is open for the
write/read attempts, and an O_RDONLY open of it yields a handle that fails
the write gate. -/
theorem claim7_access_gate_witness :
    fuse_write exGraph3 [7] 2 4 0 [1] ⟨.ok (), .ok 1⟩ ⟨5⟩ 0
      = (.error FuseError.OPERATION_NOT_PERMITTED, exGraph3, [7])
    ∧ fuse_read exGraph3 [7] 2 4 0 1 = .error FuseError.OPERATION_NOT_PERMITTED
    ∧ fn_check_access_write
        (packFh 2 true false) = false := by
  have h := claim7_access_gate exGraph3 [7] 2 4 0 1 [1] ⟨.ok (), .ok 1⟩ ⟨5⟩ 0
    (2, exOpenFile) rfl
  refine ⟨h.1 (by decide), h.2.1 (by decide), ?_⟩
  exact h.2.2 0 (.error ()) (packFh 2 true false) (exGraph3.modify 2
    (fun n => { n with open_handles := some ⟨7, 2⟩ })) rfl (by decide)

/-- Claim C8: a successful `allocate_fh` returns exactly
`(count << 2) | read | (write << 1)`; the first open of an inode (no stored
handles) stores the host-opened descriptor with count 1, and every subsequent
open increments the count by one and keeps the same stored descriptor without
invoking the host open at all (the host-open argument is arbitrary and
unused in that case). -/
theorem claim8_fh_encoding (s : InodeList) (ino : Nat) (read write : Bool)
    (hostOpen : Except Unit Nat) (lastErr : FuseError) (kn : Nat × Inode)
    (hfind : find_by_id s ino = some kn) :
    (∀ fd, kn.2.open_handles = none → hostOpen = .ok fd →
       allocate_fh s ino read write hostOpen lastErr
         = (.ok (packFh 1 read write),
            s.modify ino (fun n => { n with open_handles := some ⟨fd, 1⟩ })))
    ∧ (∀ oh, kn.2.open_handles = some oh → oh.count + 1 < 2 ^ 64 →
       allocate_fh s ino read write hostOpen lastErr
         = (.ok (packFh (oh.count + 1) read write),
            s.modify ino (fun n => { n with open_handles := some ⟨oh.fh, oh.count + 1⟩ }))) := by
  constructor
  · intro fd hnone hho
    simp only [allocate_fh, hfind, hnone, hho]
  · intro oh hsome hlt
    simp only [allocate_fh, hfind, hsome, Nat.mod_eq_of_lt hlt]

/-- Witness for `claim8_fh_encoding`: a first open of inode 2 (host
descriptor 7) packs count 1, and a second open on the fixture that already
stores ⟨7, 1⟩ packs count 2 and keeps descriptor 7 even though the host-open
oracle errors (it is never consulted). -/
theorem claim8_fh_encoding_witness :
    allocate_fh exGraph2 2 true true (.ok 7) ⟨5⟩
      = (.ok (packFh 1 true true),
         exGraph2.modify 2 (fun n => { n with open_handles := some ⟨7, 1⟩ }))
    ∧ allocate_fh exGraph3 2 true false (.error ()) ⟨5⟩
      = (.ok (packFh 2 true false),
         exGraph3.modify 2 (fun n => { n with open_handles := some ⟨7, 2⟩ })) :=
  ⟨(claim8_fh_encoding exGraph2 2 true true (.ok 7) ⟨5⟩ (2, exFile) rfl).1 7 rfl rfl,
   (claim8_fh_encoding exGraph3 2 true false (.error ()) ⟨5⟩ (2, exOpenFile) rfl).2
     ⟨7, 1⟩ rfl (by norm_num)⟩

/-- Claim C9: with write access in the handle and the host seek/write
succeeding with `n` bytes written, write fails INVALID_ARGUMENT exactly when
`offset` exceeds the origin file's current length (leaving everything
unchanged); otherwise it returns the host's byte count `n` (short writes
permitted), updates the inode's `attr.size` to
`max(attr.size, offset + data.len())` and stamps both `mtime` and `ctime`
with the current time, writing the first `n` bytes of `data` into the file at
`offset`. -/
theorem claim9_write_contract (s : InodeList) (content : List Nat) (ino fh : Nat)
    (offset : Int) (data : List Nat) (host : WriteHost) (lastErr : FuseError) (now : Nat)
    (kn : Nat × Inode) (oh : OpenedHandlers) (n : Nat)
    (hfind : find_by_id s ino = some kn)
    (hoh : kn.2.open_handles = some oh)
    (hw : fn_check_access_write fh = true)
    (hseek : host.seekRes = .ok ())
    (hwr : host.writeRes = .ok n)
    (hn : n ≤ data.length)
    (hlen : data.length < 2 ^ 32)
    (hoff0 : 0 ≤ offset)
    (hoff64 : offset < 2 ^ 64) :
    (offset > (content.length : Int) →
       fuse_write s content ino fh offset data host lastErr now
         = (.error FuseError.INVALID_ARGUMENT, s, content))
    ∧ (offset ≤ (content.length : Int) →
       (fuse_write s content ino fh offset data host lastErr now).1 = .ok n
       ∧ (∃ node',
           (fuse_write s content ino fh offset data host lastErr now).2.1.get ino = some node'
           ∧ node'.attr.size = max kn.2.attr.size (offset.toNat + data.length)
           ∧ node'.attr.mtime = now
           ∧ node'.attr.ctime = now)
       ∧ (fuse_write s content ino fh offset data host lastErr now).2.2
           = writeAt content offset.toNat (data.take n)) := by
  have hof : open_file fh false true kn.2.open_handles = .ok oh.fh := by
    simp [open_file, hw, hoh]
  have husize : usizeOfI64 offset = offset.toNat := by
    unfold usizeOfI64
    rw [Int.emod_eq_of_lt hoff0 hoff64]
  constructor
  · intro hgt
    simp only [fuse_write, hfind, hof, if_pos hgt]
  · intro hle
    have hnotgt : ¬(offset > (content.length : Int)) := not_lt.mpr hle
    have heq : fuse_write s content ino fh offset data host lastErr now
        = (.ok (n % 2 ^ 32),
           s.modify ino (fun node =>
             { node with attr := { node.attr with
                 size := if data.length + usizeOfI64 offset > node.attr.size then
                     data.length + usizeOfI64 offset
                   else node.attr.size,
                 ctime := now, mtime := now } }),
           writeAt content (usizeOfI64 offset) (data.take n)) := by
      simp only [fuse_write, hfind, hof, hseek, hwr, if_neg hnotgt]
    refine ⟨?_, ?_, ?_⟩
    · rw [heq]
      exact congrArg Except.ok (Nat.mod_eq_of_lt (lt_of_le_of_lt hn hlen))
    · rw [heq]
      have hget : (s.modify ino (fun node =>
          { node with attr := { node.attr with
              size := if data.length + usizeOfI64 offset > node.attr.size then
                  data.length + usizeOfI64 offset
                else node.attr.size,
              ctime := now, mtime := now } })).get ino
          = some { kn.2 with attr := { kn.2.attr with
              size := if data.length + usizeOfI64 offset > kn.2.attr.size then
                  data.length + usizeOfI64 offset
                else kn.2.attr.size,
              ctime := now, mtime := now } } := by
        rw [get_modify]
        have hg : s.get ino = some kn.2 := by
          simp [InodeList.get, hfind]
        rw [hg]
        rfl
      refine ⟨_, hget, ?_, rfl, rfl⟩
      simp only [husize]
      rw [Nat.max_def]
      split_ifs <;> omega
    · rw [heq, husize]

/-- Witness for `claim9_write_contract`: writing 2 bytes at offset 1 of a
3-byte file through an open handle with the write bit set; the host reports
2 bytes written, size grows to 3 = max(0, 1 + 2) and both times become 100. -/
theorem claim9_write_contract_witness :
    ((fuse_write exGraph3 [7, 7, 7] 2 6 1 [1, 2] ⟨.ok (), .ok 2⟩ ⟨5⟩ 100).1 = .ok 2
     ∧ (∃ node',
         (fuse_write exGraph3 [7, 7, 7] 2 6 1 [1, 2] ⟨.ok (), .ok 2⟩ ⟨5⟩ 100).2.1.get 2
           = some node'
         ∧ node'.attr.size = max exOpenFile.attr.size 3
         ∧ node'.attr.mtime = 100
         ∧ node'.attr.ctime = 100)
     ∧ (fuse_write exGraph3 [7, 7, 7] 2 6 1 [1, 2] ⟨.ok (), .ok 2⟩ ⟨5⟩ 100).2.2
         = writeAt [7, 7, 7] 1 [1, 2])
    ∧ fuse_write exGraph3 [7, 7, 7] 2 6 9 [1, 2] ⟨.ok (), .ok 2⟩ ⟨5⟩ 100
        = (.error FuseError.INVALID_ARGUMENT, exGraph3, [7, 7, 7]) :=
  ⟨(claim9_write_contract exGraph3 [7, 7, 7] 2 6 1 [1, 2] ⟨.ok (), .ok 2⟩ ⟨5⟩ 100
      (2, exOpenFile) ⟨7, 1⟩ 2 rfl rfl (by decide) rfl rfl (by decide) (by norm_num)
      (by norm_num) (by norm_num)).2 (by norm_num),
   (claim9_write_contract exGraph3 [7, 7, 7] 2 6 9 [1, 2] ⟨.ok (), .ok 2⟩ ⟨5⟩ 100
      (2, exOpenFile) ⟨7, 1⟩ 2 rfl rfl (by decide) rfl rfl (by decide) (by norm_num)
      (by norm_num) (by norm_num)).1 (by norm_num)⟩

/-- Claim C3 counterexample: running `add_folder` twice on the same one-entry
listing, the second run inserts a second node with the same basename `"e"`
under the same parent — the claim that the second run inserts no new node for
an already-present basename (and that no two children ever share a basename)
is false on the code. -/
theorem claim3_counterexample :
    ((do
        let s1 ← add_folder exCtxClean [.ok ["e"]] 1 exGraph1
        add_folder exCtxClean [.ok ["e"]] 1 s1 : Except FuseError InodeList).map
      (fun s => (s.nodes.countP (fun p => p.2.parent_id == 1 && name_key p.2 == "e"),
                 s.nodes.length)))
      = Except.ok (2, 3) := by
  decide

/-- Claim C3 amended: `add_folder` performs no check against existing
children — for any graph `s`, an entry the scanner passes (clean or
whitelisted) is inserted unconditionally, even when a child of `ino` with the
same basename is already present. -/
theorem claim3_amended (ctx : IngestCtx) (x : FsPath) (ino : Nat) (s : InodeList)
    (b : FileAttrBuilder)
    (hscan : ctx.scan x = .ok .Clean ∨ ctx.scan x = .ok .Whitelisted)
    (hstat : ctx.statf x = .ok b) :
    add_folder ctx [.ok x] ino s
      = .ok (s.insert (origin_path_to_proxy_path ctx x) x ino b ctx.now).2 := by
  rcases hscan with h | h <;> simp [add_folder, insert_item, h, hstat]

/-- Witness for `claim3_amended` at a concrete input. -/
theorem claim3_amended_witness :
    add_folder exCtxClean [.ok ["e"]] 1 exGraph1
      = .ok (exGraph1.insert (origin_path_to_proxy_path exCtxClean ["e"]) ["e"] 1
          FileAttrBuilder.new exCtxClean.now).2 :=
  claim3_amended exCtxClean ["e"] 1 exGraph1 FileAttrBuilder.new (Or.inl rfl) rfl

/-- Claim C5 counterexample: the origin filesystem contains `"a"` but the
graph has no child `"a"` under the root; the claim says create must fail
`file_exists`, yet the embedded `Rfs::create` succeeds (host `File::create`
creates-or-truncates, no exclusivity) and inserts inode 2. -/
theorem claim5_counterexample :
    exOrigin5.fileExists ["a"] = true ∧
    ((Rfs.create exGraph1 exOrigin5 "a" 1 420 .RegularFile ⟨5⟩ 0).1.map (·.ino))
      = Except.ok 2 ∧
    (Rfs.create exGraph1 exOrigin5 "a" 1 420 .RegularFile ⟨5⟩ 0).1
      ≠ Except.error FuseError.FILE_EXISTS := by
  decide

/-- Claim C5 amended: `Rfs::create` fails `file_exists` exactly when a child
named `name` exists in the graph under `parent_ino` — the origin filesystem
is not consulted for the check; the origin file is created with
create-or-truncate (non-exclusive) semantics, so an existing origin file
makes create succeed and insert a fresh inode; a host create failure
propagates `lastErr` (`last_host_error()`) with no inode inserted and the
graph unchanged. -/
theorem claim5_amended (s : InodeList) (origin : OriginFS) (name : String)
    (parent_ino mode : Nat) (lastErr : FuseError) (now : Nat) (kn : Nat × Inode) :
    (find_by_name s parent_ino name ≠ none →
       Rfs.create s origin name parent_ino mode .RegularFile lastErr now
         = (.error FuseError.FILE_EXISTS, s, origin))
    ∧ (find_by_name s parent_ino name = none →
       find_by_id s parent_ino = some kn →
       origin.fileExists (kn.2.origin_path ++ [name]) = true →
       ∃ o' : OriginFS,
         Rfs.create s origin name parent_ino mode .RegularFile lastErr now
           = (.ok ((((FileAttrBuilder.new.with_kind .RegularFile).with_perm
                  (mode % 65536)).with_ino (s.nodes.length + 1)).build now),
              (s.insert (kn.2.proxy_path ++ [name]) (kn.2.origin_path ++ [name]) parent_ino
                ((FileAttrBuilder.new.with_kind .RegularFile).with_perm (mode % 65536)) now).2,
              o'))
    ∧ (find_by_name s parent_ino name = none →
       find_by_id s parent_ino = some kn →
       origin.file_create (kn.2.origin_path ++ [name]) = none →
       Rfs.create s origin name parent_ino mode .RegularFile lastErr now
         = (.error lastErr, s, origin)) := by
  refine ⟨?_, ?_, ?_⟩
  · intro h
    rcases Option.ne_none_iff_exists'.mp h with ⟨kn', hkn'⟩
    simp only [Rfs.create, hkn']
  · intro h1 h2 h3
    refine ⟨{ origin with
        files := origin.files.map (fun f => if f.1 == kn.2.origin_path ++ [name] then
          (kn.2.origin_path ++ [name], []) else f) }, ?_⟩
    have hc : origin.file_create (kn.2.origin_path ++ [name])
        = some { origin with
            files := origin.files.map (fun f => if f.1 == kn.2.origin_path ++ [name] then
              (kn.2.origin_path ++ [name], []) else f) } := by
      unfold OriginFS.file_create
      rw [if_pos h3]
    simp only [Rfs.create, h1, h2, hc, finishCreate, get_insert]
    rfl
  · intro h1 h2 h3
    simp only [Rfs.create, h1, h2, h3]

/-- Witness for `claim5_amended`: the origin already holds `"a"`, the graph
does not, and create succeeds with inode id 2. -/
theorem claim5_amended_witness :
    ∃ o' : OriginFS,
      Rfs.create exGraph1 exOrigin5 "a" 1 420 .RegularFile ⟨5⟩ 0
        = (.ok ((((FileAttrBuilder.new.with_kind .RegularFile).with_perm
               (420 % 65536)).with_ino 2).build 0),
           (exGraph1.insert ["a"] ["a"] 1
             ((FileAttrBuilder.new.with_kind .RegularFile).with_perm (420 % 65536)) 0).2,
           o') :=
  (claim5_amended exGraph1 exOrigin5 "a" 1 420 ⟨5⟩ 0 (1, exRoot)).2.1 rfl rfl rfl

/-- Claim C6 amended: unlink fails `is_a_directory` when the named child is a
directory, but the graph removal happens *before* the host unlink: on host
success both the origin file and the inode are gone, and on host failure the
error is propagated with the inode nevertheless already removed from the
graph (not still present, as the claim stated). -/
theorem claim6_amended (s : InodeList) (origin : OriginFS) (parent : Nat) (name : String)
    (lastErr : FuseError) (kn : Nat × Inode)
    (hname : find_by_name s parent name = some kn) :
    (kn.2.attr.kind = .Directory →
       fuse_unlink s origin parent name lastErr = (.error FuseError.IS_DIRECTORY, s, origin))
    ∧ (kn.2.attr.kind = .RegularFile →
       s.get kn.2.attr.ino = some kn.2 →
       ((∀ o', origin.remove_file kn.2.origin_path = some o' →
           fuse_unlink s origin parent name lastErr = (.ok (), s.erase kn.2.attr.ino, o'))
        ∧ (origin.remove_file kn.2.origin_path = none →
           fuse_unlink s origin parent name lastErr
             = (.error lastErr, s.erase kn.2.attr.ino, origin)
           ∧ (s.erase kn.2.attr.ino).get kn.2.attr.ino = none))) := by
  constructor
  · intro hkind
    simp only [fuse_unlink, hname, hkind]
    simp
  · intro hkind hget
    have hstep : fuse_unlink s origin parent name lastErr
        = Rfs.remove s origin kn.2.attr.ino lastErr := by
      simp only [fuse_unlink, hname, hkind]
      simp
    constructor
    · intro o' ho'
      rw [hstep]
      simp only [Rfs.remove, hget, hkind, ho']
    · intro hnone
      refine ⟨?_, get_erase s kn.2.attr.ino⟩
      rw [hstep]
      simp only [Rfs.remove, hget, hkind, hnone]

/-- Witness for `claim6_amended`: host unlink of `"f"` fails, the error is
propagated and inode 2 is gone from the graph. -/
theorem claim6_amended_witness :
    (fuse_unlink exGraph2 exOrigin6 1 "f" ⟨5⟩
       = (.error ⟨5⟩, exGraph2.erase 2, exOrigin6)
     ∧ (exGraph2.erase 2).get 2 = none) :=
  ((claim6_amended exGraph2 exOrigin6 1 "f" ⟨5⟩ (2, exFile) rfl).2 rfl rfl).2 rfl

/-- Claim C6 counterexample: unlink of the regular child `"f"` whose origin
file is absent (so the host unlink fails): the embedded code propagates the
host error, yet the inode has already been removed from the graph — the
claim that the inode is still present after a failed host unlink is false on
the code. -/
theorem claim6_counterexample :
    (fuse_unlink exGraph2 exOrigin6 1 "f" ⟨5⟩).1 = Except.error ⟨5⟩ ∧
    (fuse_unlink exGraph2 exOrigin6 1 "f" ⟨5⟩).2.1.get 2 = none := by
  decide

end Rvfs
